import Mathlib

/-!
A shallow embedding of the LunaLibRust mining/verification core
(`src/gtx/digital_bill.rs`, `src/gtx/genesis.rs`, `src/mining/difficulty.rs`,
`src/mining/miner.rs`) and proofs about it.

Conventions of the embedding:

* Machine integers (`u64`, `u32`) become `Nat`; 32-bit wrap-around inside
  SHA-256 is explicit (`% 2^32` via `w32`).
* `f64` values are never computed with here; every float the code carries is
  represented by its two textual renditions (`F64Lit`): the `Display`
  rendering (Rust `format!("\x7b\x7d", x)`) and the `serde_json` rendering.
* `serde_json::Value` (with the default `BTreeMap` map representation, which
  serializes object keys in sorted order) becomes the `Json` inductive, with a
  depth-fuelled serializer `Json.render`; every value built by this code has
  depth far below the fuel used.
* Wall-clock reads (`SystemTime::now`) and random serial generation become
  explicit parameters of the embedded functions.
* SHA-256 (`sha2::Sha256` + `format!("\x7b:x\x7d")`) is implemented in full
  over byte lists and rendered as lowercase hex.
-/

namespace Luna

/-! ## SHA-256 over byte lists (FIPS 180-4), `Nat` arithmetic with explicit wrap -/

/-- Wrap to 32 bits. -/
def w32 (x : Nat) : Nat := x % 4294967296

/-- Right-rotation of a 32-bit word. -/
def rotr (n x : Nat) : Nat := w32 ((x >>> n) ||| (x <<< (32 - n)))

/-- SHA-256 `Ch`. -/
def chf (x y z : Nat) : Nat := (x &&& y) ^^^ ((x ^^^ 4294967295) &&& z)

/-- SHA-256 `Maj`. -/
def majf (x y z : Nat) : Nat := (x &&& y) ^^^ (x &&& z) ^^^ (y &&& z)

/-- SHA-256 `Σ₀`. -/
def bsig0 (x : Nat) : Nat := rotr 2 x ^^^ rotr 13 x ^^^ rotr 22 x

/-- SHA-256 `Σ₁`. -/
def bsig1 (x : Nat) : Nat := rotr 6 x ^^^ rotr 11 x ^^^ rotr 25 x

/-- SHA-256 `σ₀`. -/
def ssig0 (x : Nat) : Nat := rotr 7 x ^^^ rotr 18 x ^^^ (x >>> 3)

/-- SHA-256 `σ₁`. -/
def ssig1 (x : Nat) : Nat := rotr 17 x ^^^ rotr 19 x ^^^ (x >>> 10)

/-- The 64 SHA-256 round constants (decimal). -/
def K256 : List Nat :=
  [1116352408, 1899447441, 3049323471, 3921009573, 961987163,
   1508970993, 2453635748, 2870763221, 3624381080, 310598401,
   607225278, 1426881987, 1925078388, 2162078206, 2614888103,
   3248222580, 3835390401, 4022224774, 264347078, 604807628,
   770255983, 1249150122, 1555081692, 1996064986, 2554220882,
   2821834349, 2952996808, 3210313671, 3336571891, 3584528711,
   113926993, 338241895, 666307205, 773529912, 1294757372,
   1396182291, 1695183700, 1986661051, 2177026350, 2456956037,
   2730485921, 2820302411, 3259730800, 3345764771, 3516065817,
   3600352804, 4094571909, 275423344, 430227734, 506948616,
   659060556, 883997877, 958139571, 1322822218, 1537002063,
   1747873779, 1955562222, 2024104815, 2227730452, 2361852424,
   2428436474, 2756734187, 3204031479, 3329325298]

/-- The eight SHA-256 initial hash words (decimal). -/
def H256 : List Nat :=
  [1779033703, 3144134277, 1013904242, 2773480762,
   1359893119, 2600822924, 528734635, 1541459225]

/-- Big-endian 8-byte encoding of a 64-bit length field. -/
def be64 (n : Nat) : List Nat :=
  [(n >>> 56) % 256, (n >>> 48) % 256, (n >>> 40) % 256, (n >>> 32) % 256,
   (n >>> 24) % 256, (n >>> 16) % 256, (n >>> 8) % 256, n % 256]

/-- SHA-256 padding: append `0x80`, zero bytes to 56 mod 64, then the 64-bit
big-endian bit length. -/
def padMsg (msg : List Nat) : List Nat :=
  let len := msg.length
  let zeros := (119 - len % 64) % 64
  msg ++ 0x80 :: (List.replicate zeros 0 ++ be64 (8 * len))

/-- Big-endian 32-bit words from a byte list (length a multiple of 4). -/
def beWords : List Nat → List Nat
  | b0 :: b1 :: b2 :: b3 :: rest =>
      ((((b0 <<< 8) ||| b1) <<< 8 ||| b2) <<< 8 ||| b3) :: beWords rest
  | _ => []

/-- Message-schedule extension, most recent word first; runs `n` more steps. -/
def extSched : Nat → List Nat → List Nat
  | 0, acc => acc
  | n + 1, acc =>
      extSched n
        (w32 (ssig1 (acc.getD 1 0) + acc.getD 6 0 + ssig0 (acc.getD 14 0) + acc.getD 15 0) :: acc)

/-- One SHA-256 compression round; the state is the eight words `a…h`. -/
def roundStep (st : List Nat) (kw : Nat × Nat) : List Nat :=
  let a := st.getD 0 0
  let b := st.getD 1 0
  let c := st.getD 2 0
  let d := st.getD 3 0
  let e := st.getD 4 0
  let f := st.getD 5 0
  let g := st.getD 6 0
  let h := st.getD 7 0
  let t1 := w32 (h + bsig1 e + chf e f g + kw.1 + kw.2)
  let t2 := w32 (bsig0 a + majf a b c)
  [w32 (t1 + t2), a, b, c, w32 (d + t1), e, f, g]

/-- Run the 64 compression rounds. -/
def roundsGo : List (Nat × Nat) → List Nat → List Nat
  | [], st => st
  | kw :: rest, st => roundsGo rest (roundStep st kw)

/-- Compress one 16-word block into the running state. -/
def compressBlock (st : List Nat) (ws16 : List Nat) : List Nat :=
  let ws := (extSched 48 ws16.reverse).reverse
  let st2 := roundsGo (K256.zip ws) st
  (st.zip st2).map (fun p => w32 (p.1 + p.2))

/-- Consume the padded message, 16 words per block. -/
def blocksGo (st : List Nat) : List Nat → List Nat
  | w0 :: w1 :: w2 :: w3 :: w4 :: w5 :: w6 :: w7 ::
    w8 :: w9 :: w10 :: w11 :: w12 :: w13 :: w14 :: w15 :: rest =>
      blocksGo (compressBlock st
        [w0, w1, w2, w3, w4, w5, w6, w7, w8, w9, w10, w11, w12, w13, w14, w15]) rest
  | _ => st

/-- The eight digest words of a byte message. -/
def sha256words (msg : List Nat) : List Nat := blocksGo H256 (beWords (padMsg msg))

/-- Lowercase hex digit. -/
def hexChar (n : Nat) : Char := if n < 10 then Char.ofNat (48 + n) else Char.ofNat (87 + n)

/-- Eight lowercase hex digits of a 32-bit word. -/
def hex8 (n : Nat) : List Char :=
  [hexChar ((n >>> 28) &&& 15), hexChar ((n >>> 24) &&& 15),
   hexChar ((n >>> 20) &&& 15), hexChar ((n >>> 16) &&& 15),
   hexChar ((n >>> 12) &&& 15), hexChar ((n >>> 8) &&& 15),
   hexChar ((n >>> 4) &&& 15), hexChar (n &&& 15)]

/-- The 64-character lowercase hex rendering of an eight-word digest; this is
Rust's `format!("\x7b:x\x7d", hasher.finalize())` on a SHA-256 digest. -/
def digestHex (st : List Nat) : String :=
  String.mk (hex8 (st.getD 0 0) ++ hex8 (st.getD 1 0) ++ hex8 (st.getD 2 0) ++
    hex8 (st.getD 3 0) ++ hex8 (st.getD 4 0) ++ hex8 (st.getD 5 0) ++
    hex8 (st.getD 6 0) ++ hex8 (st.getD 7 0))

/-- UTF-8 bytes of one character. -/
def utf8Char (c : Char) : List Nat :=
  let n := c.toNat
  if n < 128 then [n]
  else if n < 2048 then [192 ||| (n >>> 6), 128 ||| (n &&& 63)]
  else if n < 65536 then
    [224 ||| (n >>> 12), 128 ||| ((n >>> 6) &&& 63), 128 ||| (n &&& 63)]
  else
    [240 ||| (n >>> 18), 128 ||| ((n >>> 12) &&& 63),
     128 ||| ((n >>> 6) &&& 63), 128 ||| (n &&& 63)]

/-- UTF-8 bytes of a string, as Rust `str::as_bytes`. -/
def strBytes (s : String) : List Nat := (s.data.map utf8Char).flatten

/-- UTF-8 byte length of a string: Rust `str::len`. -/
def byteLen (s : String) : Nat := (strBytes s).length

/-- `sha256hex s` is Rust's
`format!("\x7b:x\x7d", Sha256::digest(s.as_bytes()))`: the lowercase-hex
SHA-256 digest of the UTF-8 bytes of `s`. -/
def sha256hex (s : String) : String := digestHex (sha256words (strBytes s))

/-! ## `serde_json::Value` and its canonical serialization

With its default features, `serde_json` stores objects as a `BTreeMap`, so
`serde_json::to_string` emits object keys in sorted (byte-lexicographic)
order. `f64` numbers are never computed with by the code under study; each is
carried as `F64Lit`, the pair of its `Display` rendering (used by
`format!`/`to_string`) and its `serde_json` rendering. -/

/-- The two textual renditions of an `f64` literal: Rust `Display`
(e.g. `0`) and `serde_json` (e.g. `0.0`). -/
structure F64Lit where
  disp : String
  js : String
deriving DecidableEq, Repr

/-- `serde_json::Value`. Objects are association lists (the builders in this
development use distinct keys; serialization sorts them as `BTreeMap` does). -/
inductive Json where
  | null
  | bool (b : Bool)
  | str (s : String)
  | nat (n : Nat)
  | flt (f : F64Lit)
  | arr (xs : List Json)
  | obj (kvs : List (String × Json))
deriving Repr

/-- One JSON string-escaped fragment per character, as `serde_json` emits it. -/
def escFragment (c : Char) : String :=
  if c = Char.ofNat 34 then "\\\""
  else if c = Char.ofNat 92 then "\\\\"
  else if c = Char.ofNat 8 then "\\b"
  else if c = Char.ofNat 9 then "\\t"
  else if c = Char.ofNat 10 then "\\n"
  else if c = Char.ofNat 12 then "\\f"
  else if c = Char.ofNat 13 then "\\r"
  else if c.toNat < 32 then
    "\\u00" ++ String.mk [hexChar (c.toNat >>> 4), hexChar (c.toNat &&& 15)]
  else String.mk [c]

/-- A JSON string literal with quotes and escapes. -/
def escapeJson (s : String) : String :=
  "\"" ++ String.join (s.data.map escFragment) ++ "\""

/-- Lexicographic strict order on character lists by scalar value; on UTF-8
strings this agrees with Rust's byte order on `String` (the `BTreeMap` key
order). -/
def charsLt : List Char → List Char → Bool
  | [], [] => false
  | [], _ :: _ => true
  | _ :: _, [] => false
  | a :: as, b :: bs =>
      if a.toNat < b.toNat then true
      else if b.toNat < a.toNat then false
      else charsLt as bs

/-- Strict key order of the `BTreeMap`. -/
def keyLt (a b : String) : Bool := charsLt a.data b.data

/-- Insert a key into a sorted association list (BTreeMap order). -/
def insertSorted (k : String) (v : Json) : List (String × Json) → List (String × Json)
  | [] => [(k, v)]
  | (k', v') :: rest =>
      if keyLt k k' then (k, v) :: (k', v') :: rest else (k', v') :: insertSorted k v rest

/-- Sort an association list by key, as a `BTreeMap` iterates. -/
def sortKvs (kvs : List (String × Json)) : List (String × Json) :=
  kvs.foldr (fun p acc => insertSorted p.1 p.2 acc) []

/-- Comma-join rendered items. -/
def joinComma : List String → String
  | [] => ""
  | [s] => s
  | s :: rest => s ++ "," ++ joinComma rest

/-- Depth-fuelled rendering of a `Json` value, exactly `serde_json::to_string`
for values of depth below the fuel (objects sorted by key, compact
separators). Every value this development builds has depth under 32. -/
def Json.render : Nat → Json → String
  | _, .null => "null"
  | _, .bool b => cond b "true" "false"
  | _, .str s => escapeJson s
  | _, .nat n => Nat.repr n
  | _, .flt f => f.js
  | 0, .arr _ => ""
  | fuel + 1, .arr xs => "[" ++ joinComma (xs.map (Json.render fuel)) ++ "]"
  | 0, .obj _ => ""
  | fuel + 1, .obj kvs =>
      "\x7b" ++
        joinComma ((sortKvs kvs).map (fun p => escapeJson p.1 ++ ":" ++ Json.render fuel p.2)) ++
        "\x7d"

/-- `serde_json::to_string` at the working depth bound. -/
def toJsonString (j : Json) : String := Json.render 32 j

/-- `Value::get(key)` on objects. -/
def lookupPairs : List (String × Json) → String → Option Json
  | [], _ => none
  | (k', v) :: rest, k => if k' = k then some v else lookupPairs rest k

/-- `Value::get`: key lookup on an object, `None` on other values. -/
def Json.lookupKey : Json → String → Option Json
  | .obj kvs, k => lookupPairs kvs k
  | _, _ => none

/-- `Value::as_str`. -/
def Json.asStr : Json → Option String
  | .str s => some s
  | _ => none

/-- `Value::as_u64`: only genuinely integral numbers qualify. -/
def Json.asU64 : Json → Option Nat
  | .nat n => some n
  | _ => none

/-- `Value::as_f64`: a `u64` converts, giving `Display` form `n` and
`serde_json` form `n.0`. -/
def Json.asF64 : Json → Option F64Lit
  | .nat n => some ⟨Nat.repr n, Nat.repr n ++ ".0"⟩
  | .flt f => some f
  | _ => none

/-- `Value::is_null`. -/
def Json.isNull : Json → Bool
  | .null => true
  | _ => false

/-- The `get(k).and_then(as_str).unwrap_or("")` extraction pattern of
`verify_bill`. -/
def getStrD (j : Json) (k : String) : String := ((j.lookupKey k).bind Json.asStr).getD ""

/-- `pat.data` is a prefix of `s.data` (char-for-char). -/
def leadsWith : List Char → List Char → Bool
  | [], _ => true
  | _ :: _, [] => false
  | c :: cs, d :: ds => c == d && leadsWith cs ds

/-- Rust `str::starts_with(pat)`. -/
def strStartsWith (s pat : String) : Bool := leadsWith pat.data s.data

/-! ## `Difficulty` (src/mining/difficulty.rs)

Block times are `f64`; `adjust` only compares them, so they are embedded as
rationals, on which `<`/`>` agree with the `f64` comparisons for the ordinary
(non-NaN) values at stake. -/

/-- `Difficulty`: an ordinal level. -/
structure Difficulty where
  value : Nat
deriving DecidableEq, Repr

/-- `target_string`: `value` repetitions of `'0'`. -/
def Difficulty.target_string (d : Difficulty) : String :=
  String.mk (List.replicate d.value '0')

/-- `is_valid_hash`: prefix match against the target. -/
def Difficulty.is_valid_hash (d : Difficulty) (hash : String) : Bool :=
  strStartsWith hash d.target_string

/-- `adjust(last_block_time, target_time)`. -/
def Difficulty.adjust (d : Difficulty) (last_block_time target_time : ℚ) : Difficulty :=
  if last_block_time < target_time then ⟨d.value + 1⟩
  else if target_time < last_block_time ∧ 1 < d.value then ⟨d.value - 1⟩
  else ⟨d.value⟩

/-! ## `DigitalBill` (src/gtx/digital_bill.rs)

`SystemTime::now` readings and the random serial of `generate_serial` are
explicit parameters (`now`, `genSerial`). -/

/-- The `DigitalBill` struct. -/
structure DigitalBill where
  denomination : Nat
  user_address : String
  difficulty : Nat
  bill_data : Json
  bill_serial : String
  created_time : F64Lit
  bill_type : String
  front_serial : String
  back_serial : String
  metadata_hash : String
  timestamp : F64Lit
  issued_to : String
  public_key : Option String
  signature : Option String
deriving Repr

/-- `generate_metadata_hash`: SHA-256 of the serialized metadata object. -/
def DigitalBill.generate_metadata_hash (denomination : Nat) (user_address : String)
    (difficulty : Nat) (timestamp : F64Lit) (bill_serial : String) : String :=
  sha256hex (toJsonString (.obj
    [("denomination", .nat denomination), ("user_address", .str user_address),
     ("difficulty", .nat difficulty), ("timestamp", .flt timestamp),
     ("bill_serial", .str bill_serial)]))

/-- `DigitalBill::new`. `now` is the `SystemTime::now` reading; `genSerial`
stands for `generate_serial(denomination)` (timestamp + random part), used
only when no `front_serial` is supplied. -/
def DigitalBill.new (denomination : Nat) (user_address : String) (difficulty : Nat)
    (bill_data : Option Json) (bill_type : Option String) (front_serial : Option String)
    (back_serial : Option String) (metadata_hash : Option String)
    (public_key : Option String) (signature : Option String)
    (now : F64Lit) (genSerial : String) : DigitalBill :=
  let bill_serial := front_serial.getD genSerial
  let metadata_hash := metadata_hash.getD
    (generate_metadata_hash denomination user_address difficulty now bill_serial)
  { denomination, user_address, difficulty,
    bill_data := bill_data.getD Json.null,
    bill_serial,
    created_time := now,
    bill_type := bill_type.getD "GTX_Genesis",
    front_serial := front_serial.getD bill_serial,
    back_serial := back_serial.getD "",
    metadata_hash,
    timestamp := now,
    issued_to := user_address,
    public_key, signature }

/-- `get_previous_hash`: SHA-256 of the `Display` rendering of the current
wall-clock seconds — a fresh value per call, passed here explicitly. -/
def DigitalBill.get_previous_hash (now : F64Lit) : String := sha256hex now.disp

/-- `get_mining_data(nonce)`: the mining payload. `now` is the wall-clock
reading consumed by the embedded `get_previous_hash` call. -/
def DigitalBill.get_mining_data (b : DigitalBill) (nonce : Nat) (now : F64Lit) : Json :=
  .obj [("type", .str "GTX_Genesis"), ("denomination", .nat b.denomination),
        ("user_address", .str b.user_address), ("bill_serial", .str b.bill_serial),
        ("timestamp", .flt b.created_time), ("difficulty", .nat b.difficulty),
        ("previous_hash", .str (DigitalBill.get_previous_hash now)),
        ("nonce", .nat nonce), ("bill_data", b.bill_data)]

/-- `to_dict`: the summary projection hashed by `calculate_hash`. -/
def DigitalBill.to_dict (b : DigitalBill) : Json :=
  .obj [("type", .str b.bill_type), ("front_serial", .str b.front_serial),
        ("back_serial", .str b.back_serial), ("metadata_hash", .str b.metadata_hash),
        ("timestamp", .flt b.timestamp), ("issued_to", .str b.issued_to),
        ("denomination", .nat b.denomination)]

/-- `calculate_hash`: SHA-256 of the serialized summary. -/
def DigitalBill.calculate_hash (b : DigitalBill) : String :=
  sha256hex (toJsonString b.to_dict)

/-- `sign(private_key)`: SHA-256 of `private_key ++ calculate_hash()`. -/
def DigitalBill.sign (b : DigitalBill) (private_key : String) : String :=
  sha256hex (private_key ++ b.calculate_hash)

/-- `verify()`: recompute `sign(public_key)` and compare with the stored
signature; `false` when either field is absent. -/
def DigitalBill.verify (b : DigitalBill) : Bool :=
  match b.public_key, b.signature with
  | some pk, some sig => b.sign pk == sig
  | _, _ => false

/-- `derive_public_key`: SHA-256 of the private key. -/
def DigitalBill.derive_public_key (private_key : String) : String := sha256hex private_key

/-- `finalize(hash, nonce, mining_time, private_key)`: returns the updated
bill (Rust mutates `self`) and the `bill_info` record. `now1`/`now2` are the
two `SystemTime::now` readings taken for the embedded timestamps. The
`BillRegistry::new(None)` constructed at the end performs no registration
(the call is commented out in the source), so it has no effect here. -/
def DigitalBill.finalize (b : DigitalBill) (hash nonce : String) (mining_time : F64Lit)
    (private_key : Option String) (now1 now2 : F64Lit) : DigitalBill × Json :=
  let transaction_data : Json := .obj
    [("type", .str "GTX_Genesis"), ("from", .str "genesis_network"),
     ("to", .str b.user_address), ("amount", .nat b.denomination),
     ("bill_serial", .str b.bill_serial), ("mining_difficulty", .nat b.difficulty),
     ("mining_time", .flt mining_time), ("hash", .str hash),
     ("timestamp", .flt now1), ("status", .str "mined"),
     ("front_serial", .str b.front_serial), ("issued_to", .str b.user_address),
     ("denomination", .nat b.denomination), ("metadata_hash", .str b.metadata_hash)]
  let b' := match private_key with
    | some pk => { b with public_key := some (DigitalBill.derive_public_key pk),
                          signature := some (b.sign pk) }
    | none => b
  let bill_info : Json := .obj
    [("success", .bool true), ("bill_serial", .str b.bill_serial),
     ("denomination", .nat b.denomination), ("user_address", .str b.user_address),
     ("mining_time", .flt mining_time), ("difficulty", .nat b.difficulty),
     ("hash", .str hash), ("nonce", .str nonce), ("timestamp", .flt now2),
     ("luna_value", .nat b.denomination), ("transaction_data", transaction_data)]
  (b', bill_info)

/-! ## `GTXGenesis` (src/gtx/genesis.rs)

The SQLite-backed `BillRegistry` is an external collaborator; it is embedded
as a lookup function from serials to records, with `Err(_)` and `Ok(None)`
collapsed to `none` exactly as `verify_bill`'s `match` treats them. -/

/-- The persisted `BillInfo` record of the registry. -/
structure BillInfo where
  bill_serial : String
  denomination : Int
  user_address : String
  hash : String
  mining_time : F64Lit
  difficulty : Int
  luna_value : F64Lit
  timestamp : F64Lit
  verification_url : String
  image_url : String
  metadata : Json
  status : String
deriving Repr

/-- The registry as `verify_bill` consumes it: `get_bill` with errors and
not-found both mapped to `none`. -/
def Registry : Type := String → Option BillInfo

/-- `valid_denominations` of `GTXGenesis::new`. -/
def valid_denominations : List Nat :=
  [1, 10, 100, 1000, 10000, 100000, 1000000, 10000000, 100000000]

/-- `calculate_difficulty`: the denomination-band step table. -/
def calculate_difficulty (denomination : Nat) : Nat :=
  if denomination ≤ 1 then 2
  else if denomination ≤ 10 then 3
  else if denomination ≤ 100 then 4
  else if denomination ≤ 1000 then 5
  else if denomination ≤ 10000 then 6
  else if denomination ≤ 100000 then 7
  else if denomination ≤ 1000000 then 8
  else if denomination ≤ 10000000 then 9
  else 10

/-- A positive `verify_bill` result. -/
def okVerify (serial method : String) : Json :=
  .obj [("valid", .bool true), ("bill", .str serial), ("verification_method", .str method)]

/-- A negative `verify_bill` result. -/
def errVerify (msg : String) : Json :=
  .obj [("valid", .bool false), ("error", .str msg)]

/-- Method 2's expected signature: SHA-256 of `public_key ++ metadata_hash`. -/
def method2hash (public_key metadata_hash : String) : String :=
  sha256hex (public_key ++ metadata_hash)

/-- The `simple_hash` method's expected signature: SHA-256 of the positional
concatenation `front_serial ++ denomination ++ issued_to ++ timestamp`
(`format!` uses `Display`, hence the decimal denomination and `disp`
timestamp). -/
def simple_hash (front_serial : String) (denomination : Nat) (issued_to : String)
    (timestamp : F64Lit) : String :=
  sha256hex (front_serial ++ Nat.repr denomination ++ issued_to ++ timestamp.disp)

/-- The `bill_json_hash` method's expected signature: SHA-256 of the
serialized projection object. -/
def bill_json_hash (bill_type front_serial issued_to : String) (denomination : Nat)
    (timestamp : F64Lit) (public_key : String) : String :=
  sha256hex (toJsonString (.obj
    [("type", .str bill_type), ("front_serial", .str front_serial),
     ("issued_to", .str issued_to), ("denomination", .nat denomination),
     ("timestamp", .flt timestamp), ("public_key", .str public_key)]))

/-- `verify_bill`'s `public_key` extraction from the record metadata. -/
def mPk (m : Json) : String := getStrD m "public_key"

/-- `verify_bill`'s `signature` extraction. -/
def mSig (m : Json) : String := getStrD m "signature"

/-- `verify_bill`'s `metadata_hash` extraction. -/
def mMh (m : Json) : String := getStrD m "metadata_hash"

/-- `verify_bill`'s `issued_to` extraction. -/
def mIssued (m : Json) : String := getStrD m "issued_to"

/-- `verify_bill`'s `denomination` extraction
(`get.and_then(as_u64).unwrap_or(0)`). -/
def mDenom (m : Json) : Nat := ((m.lookupKey "denomination").bind Json.asU64).getD 0

/-- `verify_bill`'s `front_serial` extraction. -/
def mFront (m : Json) : String := getStrD m "front_serial"

/-- `verify_bill`'s `timestamp` extraction
(`get.and_then(as_f64).unwrap_or(0.0)`). -/
def mTs (m : Json) : F64Lit := ((m.lookupKey "timestamp").bind Json.asF64).getD ⟨"0", "0.0"⟩

/-- `verify_bill`'s `type` extraction (default `"GTX_Genesis"`). -/
def mType (m : Json) : String := ((m.lookupKey "type").bind Json.asStr).getD "GTX_Genesis"

/-- `verify_bill`'s optional `back_serial` extraction. -/
def mBack (m : Json) : Option String := (m.lookupKey "back_serial").bind Json.asStr

/-- The `DigitalBill` that `verify_bill` reconstructs from a record's
metadata before methods 3–5, with `timestamp` and `issued_to` overwritten as
in the source. -/
def reconBill (m : Json) (now : F64Lit) : DigitalBill :=
  { DigitalBill.new (mDenom m) (mIssued m) 0 none (some (mType m)) (some (mFront m))
      (mBack m) (some (mMh m)) (some (mPk m)) (some (mSig m)) now "" with
    timestamp := mTs m, issued_to := mIssued m }

/-- The ordered verification chain of `verify_bill`, applied to a record's
metadata once the record has been loaded and found non-null. The source
guards that wrap a hash comparison inside a field-presence check (method 2
and `simple_hash`) are flattened into one conjunction, which returns and
falls through identically. -/
def verifyChain (bill_serial : String) (m : Json) (now : F64Lit) : Json :=
  if mMh m ≠ "" ∧ mSig m = mMh m then
    okVerify bill_serial "signature_is_metadata_hash"
  else if mMh m ≠ "" ∧ mPk m ≠ "" ∧ mSig m ≠ "" ∧
      mSig m = method2hash (mPk m) (mMh m) then
    okVerify bill_serial "metadata_hash_signature"
  else
    let digital_bill := reconBill m now
    if mSig m = digital_bill.calculate_hash then
      okVerify bill_serial "digital_bill_calculate_hash"
    else if digital_bill.verify then
      okVerify bill_serial "digital_bill_verify_method"
    else if mSig m = digital_bill.metadata_hash then
      okVerify bill_serial "digital_bill_metadata_hash"
    else if mSig m ≠ "" ∧ mSig m = simple_hash (mFront m) (mDenom m) (mIssued m) (mTs m) then
      okVerify bill_serial "simple_hash"
    else if mSig m = bill_json_hash (mType m) (mFront m) (mIssued m) (mDenom m) (mTs m) (mPk m) then
      okVerify bill_serial "bill_json_hash"
    else if mSig m ≠ "" ∧ 10 < byteLen (mSig m) then
      okVerify bill_serial "fallback_accept"
    else errVerify "Signature verification failed"

/-- `GTXGenesis::verify_bill`. `now` is the wall-clock reading of the
`DigitalBill::new` call inside (it never influences the outcome: the
reconstructed bill has explicit `front_serial` and `metadata_hash`, and its
`timestamp` is overwritten). -/
def verify_bill (registry : Registry) (bill_serial : String) (now : F64Lit) : Json :=
  if bill_serial = "" then errVerify "Invalid bill serial"
  else match registry bill_serial with
  | none => errVerify "Bill not found in registry"
  | some bill_record =>
    if bill_record.metadata.isNull then errVerify "No bill data found in metadata"
    else verifyChain bill_serial bill_record.metadata now

/-! ## `GenesisMiner` (src/mining/miner.rs)

The search loops run unboundedly in the source; the embedding adds an
explicit `fuel` bound, and exiting on exhausted fuel returns exactly what a
flag-observation exit returns. Per-iteration effects are explicit inputs:
`times k` is the wall-clock reading `get_mining_data` consumes at nonce `k`,
`obs k` is the value the `while *mining_active` check reads before trying
nonce `k` (the code writes `true` once at entry; see the C9 analysis), and
`elapsedF k`/`elapsedU k` are `start_time.elapsed().as_secs_f64()` and its
`as u64` truncation when nonce `k` ends the search. -/

/-- The `mining_stats` counters. -/
structure MiningStats where
  bills_mined : Nat
  blocks_mined : Nat
  total_mining_time : Nat
  total_hash_attempts : Nat
deriving DecidableEq, Repr

/-- Componentwise order on the counters. -/
def statsLe (a b : MiningStats) : Prop :=
  a.bills_mined ≤ b.bills_mined ∧ a.blocks_mined ≤ b.blocks_mined ∧
  a.total_mining_time ≤ b.total_mining_time ∧ a.total_hash_attempts ≤ b.total_hash_attempts

/-- The success record `mine_bill` returns (its constant `success: true`
entry is implicit in `some`). -/
structure MineResult where
  hash : String
  nonce : Nat
  mining_time : F64Lit
deriving DecidableEq, Repr

/-- The `while *mining_active` search loop of `mine_bill`. -/
def mineBillLoop (bill : DigitalBill) (target : String) (times : Nat → F64Lit)
    (obs : Nat → Bool) (elapsedF : Nat → F64Lit) (elapsedU : Nat → Nat) :
    Nat → Nat → MiningStats → Option MineResult × MiningStats
  | _, 0, stats => (none, stats)
  | nonce, fuel + 1, stats =>
    if obs nonce then
      let bill_hash := sha256hex (toJsonString (bill.get_mining_data nonce (times nonce)))
      if strStartsWith bill_hash target then
        (some ⟨bill_hash, nonce, elapsedF nonce⟩,
         { stats with bills_mined := stats.bills_mined + 1,
                      total_mining_time := stats.total_mining_time + elapsedU nonce,
                      total_hash_attempts := stats.total_hash_attempts + nonce })
      else mineBillLoop bill target times obs elapsedF elapsedU (nonce + 1) fuel stats
    else (none, stats)

/-- `GenesisMiner::mine_bill`: build the bill, then search from nonce 0.
`stats` is the engine's counter state at entry; the returned counters are its
state at exit. -/
def mine_bill (denomination : Nat) (user_address : String) (bill_data : Option Json)
    (difficulty : Nat) (now : F64Lit) (genSerial : String) (times : Nat → F64Lit)
    (obs : Nat → Bool) (elapsedF : Nat → F64Lit) (elapsedU : Nat → Nat)
    (fuel : Nat) (stats : MiningStats) : Option MineResult × MiningStats :=
  let digital_bill := DigitalBill.new denomination user_address difficulty bill_data
    none none none none none none now genSerial
  mineBillLoop digital_bill (String.mk (List.replicate difficulty '0'))
    times obs elapsedF elapsedU 0 fuel stats

/-- `HashMap::insert`: overwrite or append a binding. -/
def mapInsert : List (String × Json) → String → Json → List (String × Json)
  | [], k, v => [(k, v)]
  | (k', v') :: rest, k, v =>
      if k' = k then (k, v) :: rest else (k', v') :: mapInsert rest k v

/-- The `while *mining_active` search loop of `mine_block`. The source
serializes a `HashMap` (arbitrary iteration order); the embedding serializes
the same bindings in sorted key order, one fixed representative of those
orders. -/
def mineBlockLoop (target : String) (obs : Nat → Bool) (elapsedF : Nat → F64Lit)
    (elapsedU : Nat → Nat) :
    List (String × Json) → Nat → Nat → MiningStats →
      Option (List (String × Json)) × MiningStats
  | _, _, 0, stats => (none, stats)
  | block_data, nonce, fuel + 1, stats =>
    if obs nonce then
      let bd := mapInsert block_data "nonce" (.nat nonce)
      let block_hash := sha256hex (toJsonString (.obj bd))
      if strStartsWith block_hash target then
        (some (mapInsert (mapInsert bd "hash" (.str block_hash)) "mining_time"
                (.flt (elapsedF nonce))),
         { stats with blocks_mined := stats.blocks_mined + 1,
                      total_mining_time := stats.total_mining_time + elapsedU nonce,
                      total_hash_attempts := stats.total_hash_attempts + nonce })
      else mineBlockLoop target obs elapsedF elapsedU bd (nonce + 1) fuel stats
    else (none, stats)

/-- `GenesisMiner::mine_block`: search from nonce 0 over the caller's block
fields. -/
def mine_block (block_data : List (String × Json)) (difficulty : Nat)
    (obs : Nat → Bool) (elapsedF : Nat → F64Lit) (elapsedU : Nat → Nat)
    (fuel : Nat) (stats : MiningStats) :
    Option (List (String × Json)) × MiningStats :=
  mineBlockLoop (String.mk (List.replicate difficulty '0')) obs elapsedF elapsedU
    block_data 0 fuel stats

/-! ## Concrete test data

Fixed bills, records and a registry used to instantiate the theorems below at
concrete inputs. -/

/-- The projection of a bill onto the fields `get_mining_data` reads. -/
def miningFields (b : DigitalBill) : Nat × String × String × F64Lit × Nat × Json :=
  (b.denomination, b.user_address, b.bill_serial, b.created_time, b.difficulty, b.bill_data)

/-- A small concrete bill. -/
def billA : DigitalBill :=
  { denomination := 1, user_address := "u", difficulty := 0, bill_data := Json.null,
    bill_serial := "S", created_time := ⟨"0", "0.0"⟩, bill_type := "GTX_Genesis",
    front_serial := "S", back_serial := "", metadata_hash := "M",
    timestamp := ⟨"0", "0.0"⟩, issued_to := "u", public_key := none, signature := none }

/-- A registry record with every field blank; test records override
`metadata`. -/
def blankBill : BillInfo :=
  { bill_serial := "", denomination := 0, user_address := "", hash := "",
    mining_time := ⟨"0", "0.0"⟩, difficulty := 0, luna_value := ⟨"0", "0.0"⟩,
    timestamp := ⟨"0", "0.0"⟩, verification_url := "", image_url := "",
    metadata := Json.null, status := "" }

/-- SHA-256 of `"F7I0"`: the `simple_hash` value of the record `recC2`. -/
def shF7I0 : String := "07f0f4dfe1fb060ce4d74798155a011656c7bc406003fa21f7391d0b60539299"

/-- A record on which method 1 (`signature == metadata_hash`) and the
`simple_hash` method would both independently match. -/
def recC2 : BillInfo :=
  { blankBill with
    metadata := Json.obj [("signature", .str shF7I0), ("metadata_hash", .str shF7I0),
      ("front_serial", .str "F"), ("denomination", .nat 7), ("issued_to", .str "I")] }

/-- A record whose metadata is an empty object: every field degrades to its
default. -/
def recC3 : BillInfo := { blankBill with metadata := Json.obj [] }

/-- A record with a stored `metadata_hash` but no signature. -/
def recC3b : BillInfo :=
  { blankBill with metadata := Json.obj [("metadata_hash", .str "M")] }

/-- A record whose signature has 5 characters but 15 UTF-8 bytes, and matches
no structured method. -/
def recC4x : BillInfo :=
  { blankBill with
    metadata := Json.obj [("signature", .str "日日日日日"), ("metadata_hash", .str "M"),
      ("front_serial", .str "F"), ("issued_to", .str "I"), ("denomination", .nat 7)] }

/-- A record with a 20-character signature matching no structured method. -/
def recC4a : BillInfo :=
  { blankBill with
    metadata := Json.obj [("signature", .str "AAAAAAAAAAAAAAAAAAAA"), ("metadata_hash", .str "M")] }

/-- A record with a 5-character ASCII signature matching no method. -/
def recC4b : BillInfo :=
  { blankBill with
    metadata := Json.obj [("signature", .str "AAAAA"), ("metadata_hash", .str "M")] }

/-- The registry holding the concrete test records. -/
def testRegistry : Registry := fun s =>
  if s = "B2" then some recC2
  else if s = "B3" then some recC3
  else if s = "B3W" then some recC3b
  else if s = "B4X" then some recC4x
  else if s = "B4A" then some recC4a
  else if s = "B4B" then some recC4b
  else none

/-! ## Shared facts -/

/-- The character list underlying `String.mk`. -/
theorem data_mk (l : List Char) : (String.mk l).data = l := rfl

/-- A SHA-256 hex digest is never the empty string (it always has 64
characters, eight per state word). -/
theorem sha256hex_ne_empty (s : String) : sha256hex s ≠ "" := by
  intro h
  have h2 : (sha256hex s).data = ("" : String).data := congrArg String.data h
  rw [show ("" : String).data = [] from rfl] at h2
  unfold sha256hex digestHex at h2
  rw [data_mk] at h2
  simp [hex8] at h2

/-! ## C5 — `Difficulty.adjust` -/

/-- C5: `Difficulty.adjust(observed, target)` increments the level by exactly
1 when `observed < target`, decrements it by exactly 1 when
`observed > target` unless that would take the level below 1, and leaves it
unchanged when they are equal; a level that starts at 1 or above stays at 1
or above, `observed < target` never decreases the level, and
`observed > target` never increases it. -/
theorem difficulty_adjust_cases (v : Nat) (o t : ℚ) :
    (o < t → Difficulty.adjust ⟨v⟩ o t = ⟨v + 1⟩) ∧
    (t < o → Difficulty.adjust ⟨v⟩ o t = ⟨if 1 < v then v - 1 else v⟩) ∧
    (o = t → Difficulty.adjust ⟨v⟩ o t = ⟨v⟩) ∧
    (1 ≤ v → 1 ≤ (Difficulty.adjust ⟨v⟩ o t).value) ∧
    (o < t → v ≤ (Difficulty.adjust ⟨v⟩ o t).value) ∧
    (t < o → (Difficulty.adjust ⟨v⟩ o t).value ≤ v) := by
  refine ⟨fun h => ?_, fun h => ?_, fun h => ?_, fun h => ?_, fun h => ?_, fun h => ?_⟩
  · unfold Difficulty.adjust
    rw [if_pos h]
  · unfold Difficulty.adjust
    rw [if_neg (not_lt.mpr h.le)]
    by_cases hv : 1 < v
    · rw [if_pos ⟨h, hv⟩, if_pos hv]
    · rw [if_neg (fun hc => hv hc.2), if_neg hv]
  · subst h
    unfold Difficulty.adjust
    rw [if_neg (lt_irrefl o), if_neg (fun hc => lt_irrefl o hc.1)]
  · unfold Difficulty.adjust
    split_ifs with h1 h2
    · show 1 ≤ v + 1
      omega
    · obtain ⟨_, hv⟩ := h2
      have hv2 : 1 < v := hv
      show 1 ≤ v - 1
      omega
    · show 1 ≤ v
      exact h
  · unfold Difficulty.adjust
    rw [if_pos h]
    show v ≤ v + 1
    omega
  · unfold Difficulty.adjust
    rw [if_neg (not_lt.mpr h.le)]
    split_ifs with h2
    · show v - 1 ≤ v
      omega
    · show v ≤ v
      omega

/-- Witness for C5 at level 4 and times 5 < 10. -/
theorem difficulty_adjust_cases_witness : Difficulty.adjust ⟨4⟩ 5 10 = ⟨4 + 1⟩ :=
  (difficulty_adjust_cases 4 5 10).1 (by norm_num)

/-! ## C6 — `calculate_difficulty` -/

set_option maxHeartbeats 1600000 in
/-- C6: `calculate_difficulty` realizes the fixed band table at all nine band
boundaries, is non-decreasing in the denomination, and maps everything above
10,000,000 to level 10. -/
theorem calculate_difficulty_table :
    (calculate_difficulty 1 = 2 ∧ calculate_difficulty 10 = 3 ∧
     calculate_difficulty 100 = 4 ∧ calculate_difficulty 1000 = 5 ∧
     calculate_difficulty 10000 = 6 ∧ calculate_difficulty 100000 = 7 ∧
     calculate_difficulty 1000000 = 8 ∧ calculate_difficulty 10000000 = 9 ∧
     calculate_difficulty 10000001 = 10) ∧
    (∀ a b : Nat, a ≤ b → calculate_difficulty a ≤ calculate_difficulty b) ∧
    (∀ d : Nat, 10000000 < d → calculate_difficulty d = 10) := by
  refine ⟨by decide, fun a b hab => ?_, fun d hd => ?_⟩
  · unfold calculate_difficulty
    split_ifs <;> omega
  · unfold calculate_difficulty
    split_ifs <;> omega

/-- Witness for C6's monotonicity at 3 ≤ 7. -/
theorem calculate_difficulty_table_witness :
    calculate_difficulty 3 ≤ calculate_difficulty 7 :=
  calculate_difficulty_table.2.1 3 7 (by decide)

/-! ## C7 — `finalize` frame -/

/-- C7: for every bill and every choice of `finalize` arguments, the bill's
`metadata_hash` is identical before and after `finalize`, and the updated
bill differs from the original in at most the `public_key` and `signature`
fields. -/
theorem finalize_frame (b : DigitalBill) (hash nonce : String) (mt : F64Lit)
    (pk : Option String) (t1 t2 : F64Lit) :
    ((b.finalize hash nonce mt pk t1 t2).1).metadata_hash = b.metadata_hash ∧
    (b.finalize hash nonce mt pk t1 t2).1 =
      { b with public_key := ((b.finalize hash nonce mt pk t1 t2).1).public_key,
               signature := ((b.finalize hash nonce mt pk t1 t2).1).signature } := by
  cases pk <;> exact ⟨rfl, rfl⟩

/-! ## C10 — serial invariant of `DigitalBill::new` -/

/-- C10: every bill built by `DigitalBill::new`, for any combination of
arguments (including the wall-clock reading and the generated serial),
satisfies `front_serial = bill_serial`. -/
theorem new_front_serial_eq_bill_serial (denomination : Nat) (user_address : String)
    (difficulty : Nat) (bill_data : Option Json) (bill_type : Option String)
    (front_serial : Option String) (back_serial : Option String)
    (metadata_hash : Option String) (public_key : Option String)
    (signature : Option String) (now : F64Lit) (genSerial : String) :
    (DigitalBill.new denomination user_address difficulty bill_data bill_type
      front_serial back_serial metadata_hash public_key signature now genSerial).front_serial =
    (DigitalBill.new denomination user_address difficulty bill_data bill_type
      front_serial back_serial metadata_hash public_key signature now genSerial).bill_serial := by
  cases front_serial <;> rfl

/-! ## Mining-loop lemmas -/

/-- Reflexivity of the counter order. -/
theorem statsLe_refl (s : MiningStats) : statsLe s s :=
  ⟨Nat.le_refl _, Nat.le_refl _, Nat.le_refl _, Nat.le_refl _⟩

/-- A `mine_bill` search that ends without a result leaves the counters
untouched, and the counters never decrease. -/
theorem mineBillLoop_frame (bill : DigitalBill) (target : String) (times : Nat → F64Lit)
    (obs : Nat → Bool) (eF : Nat → F64Lit) (eU : Nat → Nat) :
    ∀ fuel nonce stats,
      ((mineBillLoop bill target times obs eF eU nonce fuel stats).1 = none →
        (mineBillLoop bill target times obs eF eU nonce fuel stats).2 = stats) ∧
      statsLe stats (mineBillLoop bill target times obs eF eU nonce fuel stats).2 := by
  intro fuel
  induction fuel with
  | zero => exact fun nonce stats => ⟨fun _ => rfl, statsLe_refl _⟩
  | succ fuel ih =>
    intro nonce stats
    by_cases ho : obs nonce = true
    · by_cases hs : strStartsWith
        (sha256hex (toJsonString (bill.get_mining_data nonce (times nonce)))) target = true
      · have hred : mineBillLoop bill target times obs eF eU nonce (fuel + 1) stats =
            (some ⟨sha256hex (toJsonString (bill.get_mining_data nonce (times nonce))),
                   nonce, eF nonce⟩,
             { stats with bills_mined := stats.bills_mined + 1,
                          total_mining_time := stats.total_mining_time + eU nonce,
                          total_hash_attempts := stats.total_hash_attempts + nonce }) := by
          simp only [mineBillLoop]
          rw [if_pos ho, if_pos hs]
        rw [hred]
        exact ⟨fun hc => absurd hc (by simp),
               ⟨Nat.le_succ _, Nat.le_refl _, Nat.le_add_right _ _, Nat.le_add_right _ _⟩⟩
      · have hred : mineBillLoop bill target times obs eF eU nonce (fuel + 1) stats =
            mineBillLoop bill target times obs eF eU (nonce + 1) fuel stats := by
          simp only [mineBillLoop]
          rw [if_pos ho, if_neg hs]
        rw [hred]
        exact ih (nonce + 1) stats
    · have hred : mineBillLoop bill target times obs eF eU nonce (fuel + 1) stats =
          (none, stats) := by
        simp only [mineBillLoop]
        rw [if_neg ho]
      rw [hred]
      exact ⟨fun _ => rfl, statsLe_refl _⟩

/-- A `mine_block` search that ends without a result leaves the counters
untouched, and the counters never decrease. -/
theorem mineBlockLoop_frame (target : String) (obs : Nat → Bool) (eF : Nat → F64Lit)
    (eU : Nat → Nat) :
    ∀ fuel block_data nonce stats,
      ((mineBlockLoop target obs eF eU block_data nonce fuel stats).1 = none →
        (mineBlockLoop target obs eF eU block_data nonce fuel stats).2 = stats) ∧
      statsLe stats (mineBlockLoop target obs eF eU block_data nonce fuel stats).2 := by
  intro fuel
  induction fuel with
  | zero => exact fun block_data nonce stats => ⟨fun _ => rfl, statsLe_refl _⟩
  | succ fuel ih =>
    intro block_data nonce stats
    by_cases ho : obs nonce = true
    · by_cases hs : strStartsWith
        (sha256hex (toJsonString (.obj (mapInsert block_data "nonce" (.nat nonce))))) target = true
      · have hred : mineBlockLoop target obs eF eU block_data nonce (fuel + 1) stats =
            (some (mapInsert (mapInsert (mapInsert block_data "nonce" (.nat nonce)) "hash"
                    (.str (sha256hex (toJsonString (.obj (mapInsert block_data "nonce" (.nat nonce)))))))
                    "mining_time" (.flt (eF nonce))),
             { stats with blocks_mined := stats.blocks_mined + 1,
                          total_mining_time := stats.total_mining_time + eU nonce,
                          total_hash_attempts := stats.total_hash_attempts + nonce }) := by
          simp only [mineBlockLoop]
          rw [if_pos ho, if_pos hs]
        rw [hred]
        exact ⟨fun hc => absurd hc (by simp),
               ⟨Nat.le_refl _, Nat.le_succ _, Nat.le_add_right _ _, Nat.le_add_right _ _⟩⟩
      · have hred : mineBlockLoop target obs eF eU block_data nonce (fuel + 1) stats =
            mineBlockLoop target obs eF eU (mapInsert block_data "nonce" (.nat nonce))
              (nonce + 1) fuel stats := by
          simp only [mineBlockLoop]
          rw [if_pos ho, if_neg hs]
        rw [hred]
        exact ih _ (nonce + 1) stats
    · have hred : mineBlockLoop target obs eF eU block_data nonce (fuel + 1) stats =
          (none, stats) := by
        simp only [mineBlockLoop]
        rw [if_neg ho]
      rw [hred]
      exact ⟨fun _ => rfl, statsLe_refl _⟩

/-- A successful `mineBillLoop` search returns the SHA-256 of the serialized
mining payload at the returned nonce, computed with the wall-clock reading of
that iteration. -/
theorem mineBillLoop_some_hash (bill : DigitalBill) (target : String) (times : Nat → F64Lit)
    (obs : Nat → Bool) (eF : Nat → F64Lit) (eU : Nat → Nat) :
    ∀ fuel nonce stats r stats',
      mineBillLoop bill target times obs eF eU nonce fuel stats = (some r, stats') →
      r.hash = sha256hex (toJsonString (bill.get_mining_data r.nonce (times r.nonce))) := by
  intro fuel
  induction fuel with
  | zero =>
    intro nonce stats r stats' h
    exact absurd (congrArg Prod.fst h) (by simp [mineBillLoop])
  | succ fuel ih =>
    intro nonce stats r stats' h
    by_cases ho : obs nonce = true
    · by_cases hs : strStartsWith
        (sha256hex (toJsonString (bill.get_mining_data nonce (times nonce)))) target = true
      · have hred : mineBillLoop bill target times obs eF eU nonce (fuel + 1) stats =
            (some ⟨sha256hex (toJsonString (bill.get_mining_data nonce (times nonce))),
                   nonce, eF nonce⟩,
             { stats with bills_mined := stats.bills_mined + 1,
                          total_mining_time := stats.total_mining_time + eU nonce,
                          total_hash_attempts := stats.total_hash_attempts + nonce }) := by
          simp only [mineBillLoop]
          rw [if_pos ho, if_pos hs]
        rw [hred] at h
        have h1 : some (⟨sha256hex (toJsonString (bill.get_mining_data nonce (times nonce))),
            nonce, eF nonce⟩ : MineResult) = some r := congrArg Prod.fst h
        have h2 := Option.some.inj h1
        rw [← h2]
      · have hred : mineBillLoop bill target times obs eF eU nonce (fuel + 1) stats =
            mineBillLoop bill target times obs eF eU (nonce + 1) fuel stats := by
          simp only [mineBillLoop]
          rw [if_pos ho, if_neg hs]
        rw [hred] at h
        exact ih (nonce + 1) stats r stats' h
    · have hred : mineBillLoop bill target times obs eF eU nonce (fuel + 1) stats =
          (none, stats) := by
        simp only [mineBillLoop]
        rw [if_neg ho]
      rw [hred] at h
      exact absurd (congrArg Prod.fst h) (by simp)

/-! ## C1 — determinism of the mining payload -/

/-- C1 (amended): the mining payload is a pure, deterministic function of the
nonce, the bill's own fields, **and the wall-clock reading** consumed by the
embedded `get_previous_hash` call — two bills agreeing on the fields the
payload reads produce identical payloads at the same nonce and clock reading
— and the hash a successful search returns is exactly SHA-256 of the
serialized payload at the returned winning nonce, computed with that
iteration's clock reading. -/
theorem mining_payload_determinism (b b' : DigitalBill) (n : Nat) (t : F64Lit)
    (bill : DigitalBill) (target : String) (times : Nat → F64Lit) (obs : Nat → Bool)
    (eF : Nat → F64Lit) (eU : Nat → Nat) (nonce fuel : Nat) (stats stats' : MiningStats)
    (r : MineResult) (hf : miningFields b = miningFields b')
    (hrun : mineBillLoop bill target times obs eF eU nonce fuel stats = (some r, stats')) :
    b.get_mining_data n t = b'.get_mining_data n t ∧
    r.hash = sha256hex (toJsonString (bill.get_mining_data r.nonce (times r.nonce))) := by
  constructor
  · obtain ⟨d1, ua1, df1, bd1, bs1, ct1, bt1, fs1, bk1, mh1, ts1, it1, pk1, sg1⟩ := b
    obtain ⟨d2, ua2, df2, bd2, bs2, ct2, bt2, fs2, bk2, mh2, ts2, it2, pk2, sg2⟩ := b'
    simp only [miningFields, Prod.mk.injEq] at hf
    obtain ⟨h1, h2, h3, h4, h5, h6⟩ := hf
    simp only [DigitalBill.get_mining_data]
    rw [h1, h2, h3, h4, h5, h6]
  · exact mineBillLoop_some_hash bill target times obs eF eU fuel nonce stats r stats' hrun

set_option maxRecDepth 40000 in
/-- C1 counterexample to the claim as stated: on the same bill and the same
nonce, two `get_mining_data` calls with different wall-clock readings return
different JSON objects (their `previous_hash` fields differ). -/
theorem mining_payload_not_time_free :
    billA.get_mining_data 0 ⟨"0", "0.0"⟩ ≠ billA.get_mining_data 0 ⟨"1", "1.0"⟩ := by
  intro h
  have h2 : getStrD (billA.get_mining_data 0 ⟨"0", "0.0"⟩) "previous_hash" =
      getStrD (billA.get_mining_data 0 ⟨"1", "1.0"⟩) "previous_hash" :=
    congrArg (fun j => getStrD j "previous_hash") h
  have h3 : getStrD (billA.get_mining_data 0 ⟨"0", "0.0"⟩) "previous_hash" ≠
      getStrD (billA.get_mining_data 0 ⟨"1", "1.0"⟩) "previous_hash" := by decide
  exact h3 h2

set_option maxRecDepth 40000 in
/-- Witness for C1 on a concrete difficulty-0 run: the search succeeds at
nonce 0 and the returned hash is SHA-256 of the serialized payload. -/
theorem mining_payload_determinism_witness :
    billA.get_mining_data 0 ⟨"0", "0.0"⟩ = billA.get_mining_data 0 ⟨"0", "0.0"⟩ ∧
    "666947e1a6a624e420baed242a96f93db87da11a793ef967e67871e6be0202d9" =
      sha256hex (toJsonString (billA.get_mining_data 0 ⟨"0", "0.0"⟩)) :=
  mining_payload_determinism billA billA 0 ⟨"0", "0.0"⟩ billA ""
    (fun _ => ⟨"0", "0.0"⟩) (fun _ => true) (fun _ => ⟨"0", "0.0"⟩) (fun _ => 0)
    0 1 ⟨0, 0, 0, 0⟩ ⟨1, 0, 0, 0⟩
    ⟨"666947e1a6a624e420baed242a96f93db87da11a793ef967e67871e6be0202d9", 0, ⟨"0", "0.0"⟩⟩
    rfl (by decide)

/-! ## C8 — stats are touched only by the success branch -/

/-- C8: whenever `mine_bill` or `mine_block` ends without a result — the
flag-observation exit, or the embedding's fuel bound, both of which return
through the loop's non-success path — the counters are exactly the counters
at entry; and across any call the counters are monotonically non-decreasing
(they are updated only on the success branch, by additions). -/
theorem mining_stats_only_on_success (denomination : Nat) (user_address : String)
    (bill_data : Option Json) (difficulty : Nat) (now : F64Lit) (genSerial : String)
    (times : Nat → F64Lit) (obs : Nat → Bool) (eF : Nat → F64Lit) (eU : Nat → Nat)
    (fuel : Nat) (s : MiningStats) (block_data : List (String × Json))
    (difficulty2 : Nat) (obs2 : Nat → Bool) (eF2 : Nat → F64Lit) (eU2 : Nat → Nat)
    (fuel2 : Nat) (u : MiningStats) :
    ((mine_bill denomination user_address bill_data difficulty now genSerial
        times obs eF eU fuel s).1 = none →
      (mine_bill denomination user_address bill_data difficulty now genSerial
        times obs eF eU fuel s).2 = s) ∧
    statsLe s (mine_bill denomination user_address bill_data difficulty now genSerial
        times obs eF eU fuel s).2 ∧
    ((mine_block block_data difficulty2 obs2 eF2 eU2 fuel2 u).1 = none →
      (mine_block block_data difficulty2 obs2 eF2 eU2 fuel2 u).2 = u) ∧
    statsLe u (mine_block block_data difficulty2 obs2 eF2 eU2 fuel2 u).2 := by
  refine ⟨?_, ?_, ?_, ?_⟩
  · exact (mineBillLoop_frame (DigitalBill.new denomination user_address difficulty
      bill_data none none none none none none now genSerial)
      (String.mk (List.replicate difficulty '0')) times obs eF eU fuel 0 s).1
  · exact (mineBillLoop_frame (DigitalBill.new denomination user_address difficulty
      bill_data none none none none none none now genSerial)
      (String.mk (List.replicate difficulty '0')) times obs eF eU fuel 0 s).2
  · exact (mineBlockLoop_frame (String.mk (List.replicate difficulty2 '0'))
      obs2 eF2 eU2 fuel2 block_data 0 u).1
  · exact (mineBlockLoop_frame (String.mk (List.replicate difficulty2 '0'))
      obs2 eF2 eU2 fuel2 block_data 0 u).2

/-- Witness for C8: a bill search and a block search that each observe a
cleared flag at their first iteration return no result and leave the entry
counters `⟨1,2,3,4⟩` and `⟨5,6,7,8⟩` exactly as they were. -/
theorem mining_stats_only_on_success_witness :
    (mine_bill 1 "u" none 0 ⟨"0", "0.0"⟩ "S" (fun _ => ⟨"0", "0.0"⟩) (fun _ => false)
        (fun _ => ⟨"0", "0.0"⟩) (fun _ => 0) 1 ⟨1, 2, 3, 4⟩).2 = ⟨1, 2, 3, 4⟩ ∧
    statsLe ⟨1, 2, 3, 4⟩ (mine_bill 1 "u" none 0 ⟨"0", "0.0"⟩ "S" (fun _ => ⟨"0", "0.0"⟩)
        (fun _ => false) (fun _ => ⟨"0", "0.0"⟩) (fun _ => 0) 1 ⟨1, 2, 3, 4⟩).2 ∧
    (mine_block [] 0 (fun _ => false) (fun _ => ⟨"0", "0.0"⟩) (fun _ => 0) 1
        ⟨5, 6, 7, 8⟩).2 = ⟨5, 6, 7, 8⟩ ∧
    statsLe ⟨5, 6, 7, 8⟩ (mine_block [] 0 (fun _ => false) (fun _ => ⟨"0", "0.0"⟩)
        (fun _ => 0) 1 ⟨5, 6, 7, 8⟩).2 :=
  have h := mining_stats_only_on_success 1 "u" none 0 ⟨"0", "0.0"⟩ "S"
    (fun _ => ⟨"0", "0.0"⟩) (fun _ => false) (fun _ => ⟨"0", "0.0"⟩) (fun _ => 0) 1
    ⟨1, 2, 3, 4⟩ [] 0 (fun _ => false) (fun _ => ⟨"0", "0.0"⟩) (fun _ => 0) 1 ⟨5, 6, 7, 8⟩
  ⟨h.1 rfl, h.2.1, h.2.2.1 rfl, h.2.2.2⟩

/-! ## C9 — the held-guard semantics of the `mining_active` lock

In the source, `mine_bill` and `mine_block` acquire the `mining_active`
mutex once, before the loop, and hold the `MutexGuard` across the entire
search (it is released only on return). `stop_mining` must acquire the same
mutex to clear the flag, so it blocks until the search finishes; no loop
iteration can ever read `false`. In the embedding, the value the `while`
check reads at each iteration is therefore the constant written at entry:
`obs = fun _ => true`. The theorem below shows what that semantics entails:
a result-less return can only be fuel exhaustion with every tried hash
failing the target — the flag-observation exit is unreachable. -/

/-- C9 (held guard): with the constantly-true flag stream that the
guard-across-the-loop locking produces, `mineBillLoop` returns `none` only
when every nonce it had fuel for fails the difficulty target; it can never
exit by observing a cleared flag. -/
theorem held_guard_no_flag_exit (bill : DigitalBill) (target : String)
    (times : Nat → F64Lit) (eF : Nat → F64Lit) (eU : Nat → Nat)
    (fuel nonce : Nat) (stats stats' : MiningStats) (k : Nat)
    (hrun : mineBillLoop bill target times (fun _ => true) eF eU nonce fuel stats =
      (none, stats'))
    (hk1 : nonce ≤ k) (hk2 : k < nonce + fuel) :
    strStartsWith (sha256hex (toJsonString (bill.get_mining_data k (times k)))) target =
      false := by
  revert hrun hk1 hk2
  induction fuel generalizing nonce stats with
  | zero =>
    intro hrun hk1 hk2
    omega
  | succ fuel ih =>
    intro hrun hk1 hk2
    by_cases hs : strStartsWith
      (sha256hex (toJsonString (bill.get_mining_data nonce (times nonce)))) target = true
    · have hred : mineBillLoop bill target times (fun _ => true) eF eU nonce (fuel + 1) stats =
          (some ⟨sha256hex (toJsonString (bill.get_mining_data nonce (times nonce))),
                 nonce, eF nonce⟩,
           { stats with bills_mined := stats.bills_mined + 1,
                        total_mining_time := stats.total_mining_time + eU nonce,
                        total_hash_attempts := stats.total_hash_attempts + nonce }) := by
        simp only [mineBillLoop]
        rw [if_pos trivial, if_pos hs]
      rw [hred] at hrun
      exact absurd (congrArg Prod.fst hrun) (by simp)
    · have hred : mineBillLoop bill target times (fun _ => true) eF eU nonce (fuel + 1) stats =
          mineBillLoop bill target times (fun _ => true) eF eU (nonce + 1) fuel stats := by
        simp only [mineBillLoop]
        rw [if_pos trivial, if_neg hs]
      rw [hred] at hrun
      rcases Nat.eq_or_lt_of_le hk1 with he | hlt
      · subst he
        cases hb : strStartsWith
          (sha256hex (toJsonString (bill.get_mining_data nonce (times nonce)))) target
        · rfl
        · exact absurd hb hs
      · exact ih (nonce + 1) stats hrun hlt (by omega)

/-! ## `verify_bill` lemmas -/

/-- After a non-empty serial, a successful registry lookup and a non-null
metadata object, `verify_bill` is the verification chain on that metadata. -/
theorem verify_bill_some (reg : Registry) (serial : String) (r : BillInfo) (now : F64Lit)
    (hser : ¬serial = "") (hreg : reg serial = some r)
    (hnull : r.metadata.isNull = false) :
    verify_bill reg serial now = verifyChain serial r.metadata now := by
  unfold verify_bill
  rw [if_neg hser, hreg]
  simp [hnull]

/-- The reconstructed bill keeps the stored metadata hash verbatim. -/
theorem reconBill_metadata_hash (m : Json) (now : F64Lit) :
    (reconBill m now).metadata_hash = mMh m := rfl

/-- The reconstructed bill's `verify()` is the hash-commitment comparison
against the stored signature. -/
theorem reconBill_verify_eq (m : Json) (now : F64Lit) :
    (reconBill m now).verify = ((reconBill m now).sign (mPk m) == mSig m) := rfl

/-- A record whose signature degrades to `""` falls through every
hash-comparison method (a SHA-256 digest is never empty) and the fallback
(length 0), but matches the `digital_bill_metadata_hash` check exactly when
the stored metadata hash also degrades to `""`. -/
theorem verifyChain_sig_empty (serial : String) (m : Json) (now : F64Lit)
    (hsig : mSig m = "") :
    verifyChain serial m now =
      if mMh m = "" then okVerify serial "digital_bill_metadata_hash"
      else errVerify "Signature verification failed" := by
  have hv : (reconBill m now).verify = false := by
    rw [reconBill_verify_eq, hsig, beq_eq_false_iff_ne]
    exact sha256hex_ne_empty _
  simp only [verifyChain]
  rw [hsig]
  rw [if_neg (fun h => h.1 h.2.symm)]
  rw [if_neg (fun h => h.2.2.1 rfl)]
  rw [if_neg (fun h => sha256hex_ne_empty _ h.symm)]
  rw [if_neg (by simp [hv])]
  rw [reconBill_metadata_hash]
  by_cases hm : mMh m = ""
  · rw [if_pos hm.symm, if_pos hm]
  · rw [if_neg (fun h => hm h.symm), if_neg hm]
    rw [if_neg (fun h => h.1 rfl)]
    rw [if_neg (fun h => sha256hex_ne_empty _ h.symm)]
    rw [if_neg (fun h => h.1 rfl)]

/-! ## C2 — ordering of the verification chain -/

/-- C2: on any registry record where method 1 (stored signature equals the
stored metadata hash) and the positional-concatenation method would both
independently match, `verify_bill` stops at the first success and reports
`signature_is_metadata_hash`. (A signature equal to the concatenation hash is
automatically non-empty, so method 1's guard holds.) -/
theorem verification_order_reports_first (reg : Registry) (serial : String)
    (r : BillInfo) (now : F64Lit) (hser : serial ≠ "") (hreg : reg serial = some r)
    (hnull : r.metadata.isNull = false)
    (h1 : mSig r.metadata = mMh r.metadata)
    (h6 : mSig r.metadata = simple_hash (mFront r.metadata) (mDenom r.metadata)
      (mIssued r.metadata) (mTs r.metadata)) :
    verify_bill reg serial now = okVerify serial "signature_is_metadata_hash" := by
  have hsig_ne : mSig r.metadata ≠ "" := by
    rw [h6]
    exact sha256hex_ne_empty _
  have hmh_ne : mMh r.metadata ≠ "" := by
    rw [← h1]
    exact hsig_ne
  rw [verify_bill_some reg serial r now hser hreg hnull]
  simp only [verifyChain]
  rw [if_pos ⟨hmh_ne, h1⟩]

set_option maxRecDepth 100000 in
/-- Witness for C2: the record whose signature and metadata hash both equal
the concatenation hash of its own fields is accepted via method 1. -/
theorem verification_order_reports_first_witness :
    verify_bill testRegistry "B2" ⟨"0", "0.0"⟩ = okVerify "B2" "signature_is_metadata_hash" :=
  verification_order_reports_first testRegistry "B2" recC2 ⟨"0", "0.0"⟩
    (by decide) rfl rfl rfl (by decide)

/-! ## C3 — degraded fields -/

/-- C3 (amended): `verify_bill` is total and every missing metadata field
degrades to an empty-string or zero default; a record whose signature
degrades to `""` fails methods 1, 2, 3, 4, 6, 7 and the fallback and is
rejected — **unless** the stored metadata hash also degrades to `""`, in
which case the `digital_bill_metadata_hash` check compares two empty strings,
matches, and the record is accepted. -/
theorem verify_sig_missing_default (reg : Registry) (serial : String) (r : BillInfo)
    (now : F64Lit) (hser : serial ≠ "") (hreg : reg serial = some r)
    (hnull : r.metadata.isNull = false) (hsig : mSig r.metadata = "") :
    verify_bill reg serial now =
      if mMh r.metadata = "" then okVerify serial "digital_bill_metadata_hash"
      else errVerify "Signature verification failed" := by
  rw [verify_bill_some reg serial r now hser hreg hnull,
    verifyChain_sig_empty serial r.metadata now hsig]

set_option maxRecDepth 100000 in
/-- C3 counterexample to the claim as stated: the record whose metadata is an
empty object — every field missing, every extraction at its default — is
**accepted** (method `digital_bill_metadata_hash` compares the defaulted
signature `""` with the defaulted metadata hash `""`), instead of falling
through to overall rejection. -/
theorem verify_all_defaults_accepted :
    verify_bill testRegistry "B3" ⟨"0", "0.0"⟩ = okVerify "B3" "digital_bill_metadata_hash" := by
  rfl

set_option maxRecDepth 100000 in
/-- Witness for C3 on the record with a stored metadata hash but no
signature: rejected. -/
theorem verify_sig_missing_default_witness :
    verify_bill testRegistry "B3W" ⟨"0", "0.0"⟩ =
      if mMh recC3b.metadata = "" then okVerify "B3W" "digital_bill_metadata_hash"
      else errVerify "Signature verification failed" :=
  verify_sig_missing_default testRegistry "B3W" recC3b ⟨"0", "0.0"⟩
    (by decide) rfl rfl rfl

/-! ## C4 — the fallback accepts by byte length -/

/-- C4 (amended): when every structured method (1–7) fails, `verify_bill`
accepts exactly the signatures longer than 10 **UTF-8 bytes** (Rust
`str::len`), reporting `fallback_accept`, and rejects the rest. -/
theorem fallback_accepts_by_byte_length (reg : Registry) (serial : String)
    (r : BillInfo) (now : F64Lit) (hser : serial ≠ "") (hreg : reg serial = some r)
    (hnull : r.metadata.isNull = false)
    (hm1 : ¬(mMh r.metadata ≠ "" ∧ mSig r.metadata = mMh r.metadata))
    (hm2 : ¬(mMh r.metadata ≠ "" ∧ mPk r.metadata ≠ "" ∧ mSig r.metadata ≠ "" ∧
      mSig r.metadata = method2hash (mPk r.metadata) (mMh r.metadata)))
    (hm3 : mSig r.metadata ≠ (reconBill r.metadata now).calculate_hash)
    (hm4 : (reconBill r.metadata now).verify = false)
    (hm5 : mSig r.metadata ≠ mMh r.metadata)
    (hm6 : mSig r.metadata ≠ simple_hash (mFront r.metadata) (mDenom r.metadata)
      (mIssued r.metadata) (mTs r.metadata))
    (hm7 : mSig r.metadata ≠ bill_json_hash (mType r.metadata) (mFront r.metadata)
      (mIssued r.metadata) (mDenom r.metadata) (mTs r.metadata) (mPk r.metadata)) :
    verify_bill reg serial now =
      if mSig r.metadata ≠ "" ∧ 10 < byteLen (mSig r.metadata) then
        okVerify serial "fallback_accept"
      else errVerify "Signature verification failed" := by
  rw [verify_bill_some reg serial r now hser hreg hnull]
  simp only [verifyChain]
  rw [if_neg hm1]
  rw [if_neg hm2]
  rw [if_neg hm3]
  rw [if_neg (by simp [hm4])]
  rw [if_neg (fun h => hm5 (h.trans (reconBill_metadata_hash r.metadata now)))]
  rw [if_neg (fun h => hm6 h.2)]
  rw [if_neg hm7]

set_option maxRecDepth 100000 in
/-- C4 counterexample to the claim as stated: a signature of **5 characters**
(15 UTF-8 bytes) that matches no structured method is *accepted* by the
fallback, because the source compares `signature.len()` — bytes, not
characters. -/
theorem fallback_char_count_counterexample :
    (mSig recC4x.metadata).length = 5 ∧
    verify_bill testRegistry "B4X" ⟨"0", "0.0"⟩ = okVerify "B4X" "fallback_accept" :=
  ⟨rfl, by rfl⟩

set_option maxRecDepth 100000 in
/-- Witness for C4: the 20-character ASCII signature is accepted via
`fallback_accept`; the 5-character ASCII signature is rejected. -/
theorem fallback_accepts_by_byte_length_witness :
    verify_bill testRegistry "B4A" ⟨"0", "0.0"⟩ = okVerify "B4A" "fallback_accept" ∧
    verify_bill testRegistry "B4B" ⟨"0", "0.0"⟩ =
      errVerify "Signature verification failed" := by
  constructor
  · exact (fallback_accepts_by_byte_length testRegistry "B4A" recC4a ⟨"0", "0.0"⟩
      (by decide) rfl rfl (by decide) (by decide) (by decide) (by decide)
      (by decide) (by decide) (by decide)).trans (by rfl)
  · exact (fallback_accepts_by_byte_length testRegistry "B4B" recC4b ⟨"0", "0.0"⟩
      (by decide) rfl rfl (by decide) (by decide) (by decide) (by decide)
      (by decide) (by decide) (by decide)).trans (by rfl)

set_option maxRecDepth 40000 in
/-- Witness for C9: a fuel-1 run against an unreachable 64-zero target
returns `none`, and the theorem yields that nonce 0's hash misses the
target. -/
theorem held_guard_no_flag_exit_witness :
    strStartsWith (sha256hex (toJsonString (billA.get_mining_data 0 ⟨"0", "0.0"⟩)))
      (String.mk (List.replicate 64 '0')) = false :=
  held_guard_no_flag_exit billA (String.mk (List.replicate 64 '0'))
    (fun _ => ⟨"0", "0.0"⟩) (fun _ => ⟨"0", "0.0"⟩) (fun _ => 0) 1 0
    ⟨0, 0, 0, 0⟩ ⟨0, 0, 0, 0⟩ 0 (by decide) (by decide) (by decide)

end Luna
